import Mathlib

/-!
Verification of the exchange-rate pipeline core
(`src/transform/data_processor.py` and `src/load/gold_processor.py`).

The Python source is shallowly embedded: pure functions become Lean
functions over `ℚ`, `String`, and lists; Python floats appearing in the
rate validator are modelled by `PyFloat` (finite rational, the two
infinities, and NaN) with IEEE comparison semantics; fallible
constructors return `Option`.
-/

namespace Pipeline

/-! ## Python float model

The rate validator `ExchangeRateRecord.validate_exchange_rate`
(`data_processor.py` lines 45-54) branches on IEEE float comparisons, so
the embedding keeps NaN and the infinities explicit.  Finite values are
exact rationals; the source never relies on binary rounding of finite
arithmetic in the validated range, only on comparisons and on decimal
rounding to 8 places, both of which are exact here.
-/

inductive PyFloat where
  | nan : PyFloat
  | inf : PyFloat
  | ninf : PyFloat
  | fin : ℚ → PyFloat
deriving DecidableEq, Repr

namespace PyFloat

/-- IEEE `v <= w`: any comparison with NaN is false. -/
def leF : PyFloat → PyFloat → Bool
  | nan, _ => false
  | _, nan => false
  | ninf, _ => true
  | _, ninf => false
  | _, inf => true
  | inf, _ => false
  | fin a, fin b => a ≤ b

/-- IEEE `v < w`: any comparison with NaN is false. -/
def ltF : PyFloat → PyFloat → Bool
  | nan, _ => false
  | _, nan => false
  | ninf, ninf => false
  | ninf, _ => true
  | _, ninf => false
  | inf, _ => false
  | _, inf => true
  | fin a, fin b => a < b

/-- IEEE `v == w`: NaN is not equal to anything, itself included. -/
def eqF : PyFloat → PyFloat → Bool
  | nan, _ => false
  | _, nan => false
  | inf, inf => true
  | ninf, ninf => true
  | fin a, fin b => a = b
  | _, _ => false

/-- `pd.isna`: true exactly on NaN. -/
def isna : PyFloat → Bool
  | nan => true
  | _ => false

end PyFloat

/-- Round-half-even on rationals: the convention of Python `round`.
`Rat.floor` is definitionally `⌊·⌋` and keeps the definition
kernel-evaluable. -/
def roundHalfEven (q : ℚ) : ℤ :=
  let f := Rat.floor q
  let r := q - f
  if r < 1/2 then f
  else if 1/2 < r then f + 1
  else if f % 2 = 0 then f else f + 1

/-- Python `round(v, 8)`: round-half-even at 8 decimal places.  On NaN and
the infinities Python `round` returns its argument unchanged. -/
def round8 : PyFloat → PyFloat
  | .fin q => .fin ((roundHalfEven (q * 100000000) : ℚ) / 100000000)
  | v => v

/-! ## Record validator (`data_processor.py` lines 26-61)

Each Pydantic validator becomes an `Option`-returning function; a record
is accepted exactly when every field validator succeeds.
-/

/-- Python `str.isalpha`: nonempty and every character alphabetic. -/
def pyIsAlpha (s : String) : Bool :=
  s.length != 0 && s.data.all Char.isAlpha

/-- Python `str.upper`, character by character. -/
def pyUpper (s : String) : String :=
  ⟨s.data.map Char.toUpper⟩

/-- `validate_currency_code` (lines 38-43): `if not v or len(v) != 3 or
not v.isalpha(): raise`; on success returns `v.upper()`.  The truthiness
test `not v` is emptiness of the string. -/
def validate_currency_code (v : String) : Option String :=
  if v.length == 0 || v.length != 3 || !(pyIsAlpha v) then none
  else some (pyUpper v)

/-- `validate_exchange_rate` (lines 45-54), branch for branch:
`v <= 0` rejects; `not pd.isna(v) and (v == float("inf") or v != v)`
rejects; `v > 1000000` rejects; otherwise `round(v, 8)` is stored.
Note the second guard can never fire for NaN, since `pd.isna(v)` is
true there and the conjunction short-circuits. -/
def validate_exchange_rate (v : PyFloat) : Option PyFloat :=
  if v.leF (.fin 0) then none
  else if !v.isna && (v.eqF .inf || !(v.eqF v)) then none
  else if (PyFloat.fin 1000000).ltF v then none
  else some (round8 v)

/-- A datetime, reduced to the data the source inspects: the year (the
only field the timestamp validator reads) and an ordinal position inside
the year (so that `max` over timestamps is defined).  Ordered
lexicographically. -/
structure Datetime where
  year : ℤ
  sub : ℕ
deriving DecidableEq, Repr

/-- Lexicographic `<=` on datetimes. -/
def Datetime.leD (a b : Datetime) : Bool :=
  a.year < b.year || (a.year = b.year && a.sub ≤ b.sub)

/-- `validate_timestamps` (lines 56-61): year within [2000, 2030]. -/
def validate_timestamps (v : Datetime) : Option Datetime :=
  if v.year < 2000 || v.year > 2030 then none
  else some v

/-- Calendar dates, as day ordinals. -/
abbrev Date := ℤ

/-- One raw tabular record as handed to `ExchangeRateRecord(**record)`. -/
structure RawRecord where
  base_currency : String
  target_currency : String
  exchange_rate : PyFloat
  collection_timestamp : Datetime
  collection_date : Date
  last_update_timestamp : Datetime
  pipeline_version : String
deriving DecidableEq, Repr

/-- A validated `ExchangeRateRecord`.  Identical shape; the constructor
below is the only way the pipeline produces one. -/
structure ExchangeRateRecord where
  base_currency : String
  target_currency : String
  exchange_rate : PyFloat
  collection_timestamp : Datetime
  collection_date : Date
  last_update_timestamp : Datetime
  pipeline_version : String
deriving DecidableEq, Repr

/-- `ExchangeRateRecord(**record)`: every field validator must succeed
(Pydantic raises `ValidationError` when any of them raises).  There is no
validator relating `base_currency` to `target_currency`; the only checks
are the three field validators above. -/
def mkExchangeRateRecord (r : RawRecord) : Option ExchangeRateRecord := do
  let b ← validate_currency_code r.base_currency
  let t ← validate_currency_code r.target_currency
  let rate ← validate_exchange_rate r.exchange_rate
  let ct ← validate_timestamps r.collection_timestamp
  let lt ← validate_timestamps r.last_update_timestamp
  some { base_currency := b, target_currency := t, exchange_rate := rate,
         collection_timestamp := ct, collection_date := r.collection_date,
         last_update_timestamp := lt, pipeline_version := r.pipeline_version }

/-- `DataTransformer.validate_records` (lines 306-352): per-record
validation errors are caught inside the loop; accepted records are
collected in order. -/
def validate_records (records : List RawRecord) : List ExchangeRateRecord :=
  records.filterMap mkExchangeRateRecord

/-! ## Quality scorer (`data_processor.py` lines 165-191)

`DataQualityChecker._calculate_overall_score` runs over a DataFrame with
the seven record columns; any cell may be null.  A row of that frame is
modelled with `Option` cells.
-/

structure QRow where
  base_currency : Option String
  target_currency : Option String
  exchange_rate : Option ℚ
  collection_timestamp : Option Datetime
  collection_date : Option Date
  last_update_timestamp : Option Datetime
  pipeline_version : Option String
deriving DecidableEq, Repr

/-- Number of null cells in one row (the frame has 7 columns). -/
def QRow.missingCells (r : QRow) : ℕ :=
  r.base_currency.isNone.toNat + r.target_currency.isNone.toNat +
  r.exchange_rate.isNone.toNat + r.collection_timestamp.isNone.toNat +
  r.collection_date.isNone.toNat + r.last_update_timestamp.isNone.toNat +
  r.pipeline_version.isNone.toNat

/-- `df.isnull().sum().sum()`. -/
def countMissing (df : List QRow) : ℕ :=
  (df.map QRow.missingCells).sum

/-- One row of `(df["exchange_rate"] <= 0) | (df["exchange_rate"] > 1000000)`.
A null cell is float NaN in pandas, whose comparisons are all false, so a
missing rate is not counted as invalid. -/
def rowRateInvalid (r : QRow) : Bool :=
  match r.exchange_rate with
  | some q => q ≤ 0 || q > 1000000
  | none => false

/-- `((df["exchange_rate"] <= 0) | (df["exchange_rate"] > 1000000)).sum()`. -/
def countInvalidRates (df : List QRow) : ℕ :=
  df.countP rowRateInvalid

/-- Python `str(x)` of a currency cell.  A missing cell of an object
column is float NaN, and `str(float("nan"))` is the string `"nan"` --
three alphabetic characters, so a null slot passes the 3-letter test in
the source. -/
def pyStrOfCell : Option String → String
  | some s => s
  | none => "nan"

/-- The lambda of lines 184-186: `len(str(x)) != 3 or not str(x).isalpha()`. -/
def slotInvalid (c : Option String) : Bool :=
  let s := pyStrOfCell c
  s.length != 3 || !(pyIsAlpha s)

/-- The loop of lines 182-186: invalid slots summed over both currency
columns. -/
def countInvalidCurrencies (df : List QRow) : ℕ :=
  (df.map (fun r => (slotInvalid r.base_currency).toNat +
    (slotInvalid r.target_currency).toNat)).sum

/-- `_calculate_overall_score` (lines 165-191): start from 1.0, subtract
the three weighted ratios (the rate and currency penalties are guarded by
`len(df) > 0`), floor at 0 once at the end.  The unguarded missing-cells
division is exact rational division here; the Python NaN produced on an
empty frame is outside the model, which is only used on nonempty frames. -/
def calculate_overall_score (df : List QRow) : ℚ :=
  let n : ℚ := df.length
  let score1 : ℚ := 1 - (countMissing df : ℚ) / (n * 7) * (3/10)
  let score2 : ℚ :=
    if 0 < df.length then score1 - (countInvalidRates df : ℚ) / n * (4/10) else score1
  let score3 : ℚ :=
    if 0 < df.length then score2 - (countInvalidCurrencies df : ℚ) / (n * 2) * (3/10)
    else score2
  max 0 score3

/-- A currency slot as the claim reads it: invalid when it is not exactly
3 alphabetic characters; in particular a null slot is invalid.  This is
the claim-side reading, to be compared with `slotInvalid` above. -/
def specSlotInvalid : Option String → Bool
  | none => true
  | some s => s.length != 3 || !(pyIsAlpha s)

/-- Claim-side count of invalid currency slots over the 2n slots. -/
def specInvalidCurrencies (df : List QRow) : ℕ :=
  (df.map (fun r => (specSlotInvalid r.base_currency).toNat +
    (specSlotInvalid r.target_currency).toNat)).sum

/-! ## Run-level error handling (`data_processor.py` lines 443-543)

`DataTransformer.process_date` validates the tabular records, raises
`ValueError` when no record survives (lines 477-478), and its outer
handler (lines 525-543) turns any exception into a status-`error`
report; otherwise the success report carries the counts of lines
494-513.  The embedding keeps the decision kernel, eliding file IO
(raw-file load, quality report, parquet write).
-/

inductive RunStatus where
  | success : RunStatus
  | error : RunStatus
deriving DecidableEq, Repr

structure ProcessReport where
  status : RunStatus
  validated_records : ℕ
  invalid_records : ℕ
  error_type : Option String
deriving DecidableEq, Repr

/-- The validation-run kernel of `process_date`. -/
def process_date_records (records : List RawRecord) : ProcessReport :=
  let validated := validate_records records
  if validated.isEmpty then
    { status := .error, validated_records := 0,
      invalid_records := records.length, error_type := some "ValueError" }
  else
    { status := .success, validated_records := validated.length,
      invalid_records := records.length - validated.length, error_type := none }

/-! ## Sorting helpers

`sort_values` and the sorted `groupby` keys are modelled with an
insertion sort over a boolean comparison; the claims below only use
membership in the sorted list, not the order itself.
-/

def insertLe {α : Type} (le : α → α → Bool) (a : α) : List α → List α
  | [] => [a]
  | b :: bs => if le a b then a :: b :: bs else b :: insertLe le a bs

def sortLe {α : Type} (le : α → α → Bool) : List α → List α
  | [] => []
  | a :: as => insertLe le a (sortLe le as)

theorem mem_insertLe {α : Type} (le : α → α → Bool) (a x : α) :
    ∀ l : List α, x ∈ insertLe le a l ↔ x = a ∨ x ∈ l
  | [] => by simp [insertLe]
  | b :: bs => by
    unfold insertLe
    cases hle : le a b <;>
      simp only [Bool.false_eq_true, if_false, if_true, List.mem_cons,
        mem_insertLe le a x bs] <;>
      tauto

theorem mem_sortLe {α : Type} (le : α → α → Bool) (x : α) :
    ∀ l : List α, x ∈ sortLe le l ↔ x ∈ l
  | [] => Iff.rfl
  | a :: as => by
    simp only [sortLe, mem_insertLe, List.mem_cons, mem_sortLe le x as]

/-- Lexicographic comparison of strings by character code. -/
def charListLe : List Char → List Char → Bool
  | [], _ => true
  | _ :: _, [] => false
  | a :: as, b :: bs =>
      if a.val < b.val then true
      else if b.val < a.val then false
      else charListLe as bs

def strLe (a b : String) : Bool :=
  charListLe a.data b.data

/-! ## Daily aggregator (`gold_processor.py` lines 102-141)

`calculate_daily_metrics` groups the silver frame by
`(collection_date, target_currency)` and aggregates
`exchange_rate` with mean/std/min/max/count and `collection_timestamp`
with max.  Pandas `std` is the sample standard deviation (`ddof=1`),
which is NaN on a single-element group and is not filled afterwards
(only `rate_cv` is, line 129).

Standard deviations are irrational in general, so the embedding carries
their squares: `rate_var` is `none` exactly where pandas `rate_std` is
NaN, and `some v` where `rate_std` is `sqrt v`; likewise `rate_cv_sq`
is the square of `rate_cv`.  Every claim about these columns concerns
nullness or exact values expressible on squares.
-/

structure SilverRow where
  collection_date : Date
  target_currency : String
  exchange_rate : ℚ
  collection_timestamp : Datetime
deriving DecidableEq, Repr

structure DailyMetric where
  date : Date
  currency : String
  rate_mean : ℚ
  rate_var : Option ℚ
  rate_min : ℚ
  rate_max : ℚ
  observations : ℕ
  last_update : Datetime
  rate_range : ℚ
  rate_cv_sq : ℚ
deriving DecidableEq, Repr

def listMin : List ℚ → ℚ
  | [] => 0
  | x :: xs => xs.foldl min x

def listMax : List ℚ → ℚ
  | [] => 0
  | x :: xs => xs.foldl max x

def listMaxD : List Datetime → Datetime
  | [] => ⟨0, 0⟩
  | x :: xs => xs.foldl (fun a b => if Datetime.leD a b then b else a) x

def listMean (l : List ℚ) : ℚ :=
  l.sum / (l.length : ℚ)

/-- Sample variance with `ddof = 1` (the square of pandas `std`), on a
list with at least two elements. -/
def sampleVar (l : List ℚ) : ℚ :=
  ((l.map (fun x => (x - listMean l) ^ 2)).sum) / ((l.length : ℚ) - 1)

/-- Group key of the `groupby(["collection_date", "target_currency"])`. -/
def keyOf (r : SilverRow) : Date × String :=
  (r.collection_date, r.target_currency)

def keyLe (a b : Date × String) : Bool :=
  a.1 < b.1 || (a.1 = b.1 && strLe a.2 b.2)

/-- Aggregation of one `(date, currency)` group (lines 115-129). -/
def aggGroup (k : Date × String) (g : List SilverRow) : DailyMetric :=
  let rates := g.map (fun r => r.exchange_rate)
  let n : ℕ := rates.length
  let mean : ℚ := rates.sum / (n : ℚ)
  let var : Option ℚ := if 2 ≤ n then some (sampleVar rates) else none
  { date := k.1, currency := k.2, rate_mean := mean, rate_var := var,
    rate_min := listMin rates, rate_max := listMax rates, observations := n,
    last_update := listMaxD (g.map (fun r => r.collection_timestamp)),
    rate_range := listMax rates - listMin rates,
    rate_cv_sq := match var with | none => 0 | some v => v / mean ^ 2 }

/-- `calculate_daily_metrics` (lines 102-141): aggregate each group;
group keys are the sorted distinct `(date, currency)` pairs, and the
result is again sorted by `(date, currency)` (line 132). -/
def calculate_daily_metrics (rows : List SilverRow) : List DailyMetric :=
  let keys := sortLe keyLe (rows.map keyOf).dedup
  keys.map (fun k => aggGroup k (rows.filter (fun r => decide (keyOf r = k))))

/-! ## Trend calculator (`gold_processor.py` lines 143-215)

`calculate_historical_trends` loops over currencies; for each currency
it works on that currency's date-sorted `rate_mean` series.  The
embedding is that per-currency computation on the list of daily means.
As above, the rolling standard deviation is carried as its square.
-/

/-- The trailing window of up to `w` points ending at index `i`. -/
def rollingWindow (w : ℕ) (xs : List ℚ) (i : ℕ) : List ℚ :=
  (xs.take (i + 1)).drop (i + 1 - w)

/-- `series.rolling(window=w, min_periods=1).agg(f)`. -/
def rolling (w : ℕ) (f : List ℚ → ℚ) (xs : List ℚ) : List ℚ :=
  (List.range xs.length).map (fun i => f (rollingWindow w xs i))

/-- `rolling(window=w, min_periods=1).std()` followed by `fillna(0)`:
`ddof=1` std is NaN on singleton windows and those NaNs become 0.
Values are squared (see the section comment). -/
def rollingVarFilled (w : ℕ) (xs : List ℚ) : List ℚ :=
  rolling w (fun l => if 2 ≤ l.length then sampleVar l else 0) xs

/-- `pct_change() * 100` followed by `fillna(0)` (lines 174-177): the
leading NaN becomes 0, every later entry is
`(cur / prev - 1) * 100`. -/
def dailyChanges (xs : List ℚ) : List ℚ :=
  match xs with
  | [] => []
  | x :: rest => 0 :: List.zipWith (fun prev cur => (cur / prev - 1) * 100) (x :: rest) rest

/-- `(rate_mean / first_rate - 1) * 100` (lines 180-181). -/
def cumulativeChanges (xs : List ℚ) : List ℚ :=
  match xs with
  | [] => []
  | x0 :: _ => xs.map (fun x => (x / x0 - 1) * 100)

/-- `np.where(range_30d > 0, (rate_mean - min_30d) / range_30d * 100, 50.0)`
(lines 195-200), pointwise over the three aligned columns. -/
def relativePositions : List ℚ → List ℚ → List ℚ → List ℚ
  | x :: xs, mx :: mxs, mn :: mns =>
      (if mx - mn > 0 then (x - mn) / (mx - mn) * 100 else 50) ::
        relativePositions xs mxs mns
  | _, _, _ => []

structure CurrencyTrends where
  daily_change : List ℚ
  cumulative_change : List ℚ
  volatility_7d_sq : List ℚ
  ma_7d : List ℚ
  max_30d : List ℚ
  min_30d : List ℚ
  relative_position : List ℚ
deriving DecidableEq, Repr

/-- The per-currency body of `calculate_historical_trends`
(lines 162-203): with fewer than 2 points the change columns are
constant 0; otherwise day-over-day and cumulative changes and the
rolling 7-point volatility of the daily changes; in both branches the
rolling mean/extremes and the relative position. -/
def calculate_historical_trends_currency (xs : List ℚ) : CurrencyTrends :=
  let dc := if xs.length < 2 then xs.map (fun _ => 0) else dailyChanges xs
  let cc := if xs.length < 2 then xs.map (fun _ => 0) else cumulativeChanges xs
  let vol := if xs.length < 2 then xs.map (fun _ => 0) else rollingVarFilled 7 dc
  let mx := rolling 30 listMax xs
  let mn := rolling 30 listMin xs
  { daily_change := dc, cumulative_change := cc, volatility_7d_sq := vol,
    ma_7d := rolling 7 listMean xs, max_30d := mx, min_30d := mn,
    relative_position := relativePositions xs mx mn }

/-! ## Currency summary classifications (`gold_processor.py` lines 297-310) -/

inductive VolClass where
  | baixa : VolClass
  | moderada : VolClass
  | alta : VolClass
  | muitoAlta : VolClass
deriving DecidableEq, Repr

/-- `pd.cut(avg_volatility_7d, bins=[0, 1, 2, 5, inf], labels=[...])`
(lines 298-302).  With the default `right=True` and
`include_lowest=False` the buckets are the left-open right-closed
intervals `(0,1], (1,2], (2,5], (5,inf)`; a value outside all of them
(in particular exactly 0) gets a null label. -/
def volatility_class (x : ℚ) : Option VolClass :=
  if x ≤ 0 then none
  else if x ≤ 1 then some .baixa
  else if x ≤ 2 then some .moderada
  else if x ≤ 5 then some .alta
  else some .muitoAlta

inductive TrendClass where
  | forteAlta : TrendClass
  | alta : TrendClass
  | estavel : TrendClass
  | baixa : TrendClass
  | forteBaixa : TrendClass
deriving DecidableEq, Repr

/-- The classification lambda of lines 304-310, branch for branch. -/
def trend_class (x : ℚ) : TrendClass :=
  if x > 2 then .forteAlta
  else if x > 1/2 then .alta
  else if -(1/2) ≤ x ∧ x ≤ 1/2 then .estavel
  else if x > -2 then .baixa
  else .forteBaixa

/-! ## Simplified trend stage (`gold_processor.py` lines 560-578)

`process_gold_layer` (lines 487-497) calls
`calculate_historical_trends_simple`, not `calculate_historical_trends`:
step 3 of the pipeline is `trends_df =
self.calculate_historical_trends_simple(daily_metrics)`.
-/

structure GoldTrendRow where
  date : Date
  currency : String
  rate_mean : ℚ
  rate_var : Option ℚ
  rate_min : ℚ
  rate_max : ℚ
  observations : ℕ
  last_update : Datetime
  rate_range : ℚ
  rate_cv_sq : ℚ
  daily_change : ℚ
  cumulative_change : ℚ
  ma_7d : ℚ
  volatility_7d : ℚ
  max_30d : ℚ
  min_30d : ℚ
  relative_position : ℚ
deriving DecidableEq, Repr

/-- `sort_values(["currency", "date"])` comparison. -/
def metricLe (a b : DailyMetric) : Bool :=
  (strLe a.currency b.currency && !(a.currency = b.currency)) ||
    (a.currency = b.currency && a.date ≤ b.date)

/-- `calculate_historical_trends_simple` (lines 560-578): sort by
(currency, date), then add the constant columns `daily_change = 0`,
`cumulative_change = 0`, `volatility_7d = 0`, `relative_position = 50`
and copy `rate_mean` into `ma_7d`, `max_30d`, `min_30d`. -/
def calculate_historical_trends_simple (dm : List DailyMetric) : List GoldTrendRow :=
  (sortLe metricLe dm).map (fun m =>
    { date := m.date, currency := m.currency, rate_mean := m.rate_mean,
      rate_var := m.rate_var, rate_min := m.rate_min, rate_max := m.rate_max,
      observations := m.observations, last_update := m.last_update,
      rate_range := m.rate_range, rate_cv_sq := m.rate_cv_sq,
      daily_change := 0, cumulative_change := 0, ma_7d := m.rate_mean,
      volatility_7d := 0, max_30d := m.rate_mean, min_30d := m.rate_mean,
      relative_position := 50 })

/-- Steps 2-3 of `process_gold_layer` (lines 487-491): daily metrics from
the silver frame, then the simplified trend stage. -/
def process_gold_layer_trends (silver : List SilverRow) : List GoldTrendRow :=
  calculate_historical_trends_simple (calculate_daily_metrics silver)

/-! ## Helper lemmas on rounding and the rate validator -/

theorem rat_floor_eq (q : ℚ) : (Rat.floor q : ℤ) = ⌊q⌋ :=
  (Rat.floor_def' q).trans Rat.floor_def.symm

theorem roundHalfEven_low {q : ℚ} {z : ℤ} (h1 : (z : ℚ) ≤ q) (h2 : q < z + 1/2) :
    roundHalfEven q = z := by
  have hf : ⌊q⌋ = z := Int.floor_eq_iff.mpr ⟨h1, by linarith⟩
  simp only [roundHalfEven, rat_floor_eq, hf]
  rw [if_pos (by linarith : q - (z : ℚ) < 1/2)]

theorem roundHalfEven_ge_floor (q : ℚ) : ⌊q⌋ ≤ roundHalfEven q := by
  simp only [roundHalfEven, rat_floor_eq]
  split_ifs <;> omega

theorem roundHalfEven_le_floor_succ (q : ℚ) : roundHalfEven q ≤ ⌊q⌋ + 1 := by
  simp only [roundHalfEven, rat_floor_eq]
  split_ifs <;> omega

theorem roundHalfEven_le_of_le {q : ℚ} {N : ℤ} (h : q ≤ N) : roundHalfEven q ≤ N := by
  by_cases hN : ⌊q⌋ = N
  · simp only [roundHalfEven, rat_floor_eq, hN]
    have hr : q - (N : ℚ) < 1/2 := by
      have : q - (N : ℚ) ≤ 0 := by linarith
      linarith
    rw [if_pos hr]
  · have hfl : ⌊q⌋ ≤ N := by
      have := Int.floor_le_floor h
      simpa using this
    have h2 : ⌊q⌋ < N := lt_of_le_of_ne hfl hN
    have := roundHalfEven_le_floor_succ q
    omega

theorem roundHalfEven_nonneg {q : ℚ} (h : 0 ≤ q) : 0 ≤ roundHalfEven q :=
  le_trans (Int.floor_nonneg.mpr h) (roundHalfEven_ge_floor q)

theorem one_le_roundHalfEven {q : ℚ} (h : 1 ≤ q) : 1 ≤ roundHalfEven q := by
  have h1 : (1 : ℤ) ≤ ⌊q⌋ := Int.le_floor.mpr (by exact_mod_cast h)
  exact le_trans h1 (roundHalfEven_ge_floor q)

/-- On a finite rate in the accepted range, the validator reaches the
final branch and stores the 8-decimal rounding. -/
theorem validate_fin_accept {q : ℚ} (h0 : 0 < q) (h1 : q ≤ 1000000) :
    validate_exchange_rate (PyFloat.fin q) =
      some (PyFloat.fin ((roundHalfEven (q * 100000000) : ℚ) / 100000000)) := by
  have hle : (PyFloat.fin q).leF (.fin 0) = false := by
    simp only [PyFloat.leF, decide_eq_false_iff_not, not_le]
    exact h0
  have hguard : (!(PyFloat.fin q).isna &&
      ((PyFloat.fin q).eqF .inf || !((PyFloat.fin q).eqF (.fin q)))) = false := by
    simp [PyFloat.isna, PyFloat.eqF]
  have hlt : (PyFloat.fin 1000000).ltF (.fin q) = false := by
    simp only [PyFloat.ltF, decide_eq_false_iff_not, not_lt]
    exact h1
  simp only [validate_exchange_rate, hle, hguard, hlt, Bool.false_eq_true,
    if_false, round8]

/-! ## Claims -/

/-- C7: on records that are otherwise valid, the rate rule accepts
exactly the finite rates in `(0, 1000000]` -- but NaN is also accepted:
the guard `not pd.isna(v) and (v == inf or v != v)` can never fire on
NaN, `NaN <= 0` and `NaN > 1000000` are both false, and `round(NaN, 8)`
is NaN, so a NaN rate flows into the accepted record.  This contradicts
the validator docstring (positive and finite), its own inline comment
(`Check for inf and NaN`) and `ExchangeRateValidator.is_valid_rate`
together with its unit test, which all treat NaN as invalid. -/
theorem C7_rate_rule :
    validate_exchange_rate PyFloat.nan = some PyFloat.nan ∧
    validate_exchange_rate PyFloat.inf = none ∧
    validate_exchange_rate PyFloat.ninf = none ∧
    validate_exchange_rate (PyFloat.fin 0) = none ∧
    validate_exchange_rate (PyFloat.fin (-1)) = none ∧
    validate_exchange_rate (PyFloat.fin 1000001) = none ∧
    validate_exchange_rate (PyFloat.fin 5) = some (PyFloat.fin 5) := by
  refine ⟨rfl, rfl, rfl, by decide, by decide, by decide, ?_⟩
  have h5 : roundHalfEven ((5 : ℚ) * 100000000) = 500000000 :=
    roundHalfEven_low (by norm_num) (by norm_num)
  rw [validate_fin_accept (by norm_num) (by norm_num), h5]
  norm_num

/-- C5 counterexample: `avg_volatility_7d = 1` is classified `Baixa`
(Low), not Moderate, and `avg_volatility_7d = 0` falls outside every
`pd.cut` bucket and gets a null class, not Low. -/
theorem C5_counterexample :
    volatility_class 1 = some VolClass.baixa ∧
    volatility_class 1 ≠ some VolClass.moderada ∧
    volatility_class 0 = none ∧
    volatility_class 0 ≠ some VolClass.baixa := by
  refine ⟨?_, ?_, ?_, ?_⟩ <;> decide

/-- C5 (amended): the volatility buckets are left-open right-closed:
`Baixa (0,1]`, `Moderada (1,2]`, `Alta (2,5]`, `MuitoAlta (5,inf)`;
values `<= 0` (in particular exactly 0) receive no class. -/
theorem C5_volatility_buckets (x : ℚ) :
    (volatility_class x = some VolClass.baixa ↔ 0 < x ∧ x ≤ 1) ∧
    (volatility_class x = some VolClass.moderada ↔ 1 < x ∧ x ≤ 2) ∧
    (volatility_class x = some VolClass.alta ↔ 2 < x ∧ x ≤ 5) ∧
    (volatility_class x = some VolClass.muitoAlta ↔ 5 < x) ∧
    (volatility_class x = none ↔ x ≤ 0) := by
  unfold volatility_class
  split_ifs with h1 h2 h3 h4 <;>
    refine ⟨?_, ?_, ?_, ?_, ?_⟩ <;> simp <;>
    first
      | linarith
      | (intro h; linarith)
      | (intro h h5; linarith)
      | (constructor <;> linarith)
      | (rintro ⟨ha, hb⟩; linarith)
      | (intro h; constructor <;> linarith)

/-- C5 witness: a value strictly inside a bucket, classified through the
amended characterization. -/
theorem C5_witness : volatility_class (3/2) = some VolClass.moderada :=
  (C5_volatility_buckets (3/2)).2.1.mpr (by norm_num)

/-- C6 counterexample: the latest daily change `x = -2` is classified
`Forte Baixa` (StrongDown), not `Baixa` (Down): the branch
`"Baixa" if x > -2` is strict, so the boundary falls through to the
else. -/
theorem C6_counterexample :
    trend_class (-2) = TrendClass.forteBaixa ∧
    trend_class (-2) ≠ TrendClass.baixa := by
  have h : trend_class (-2) = TrendClass.forteBaixa := by
    norm_num [trend_class]
  exact ⟨h, by rw [h]; decide⟩

/-- C6 (amended): `StrongUp (x>2)`, `Up (0.5<x<=2)`,
`Stable (-0.5<=x<=0.5)`, `Down (-2<x<-0.5)`, `StrongDown (x<=-2)` -- the
Down bucket is open at -2 and StrongDown includes -2. -/
theorem C6_trend_buckets (x : ℚ) :
    (trend_class x = TrendClass.forteAlta ↔ 2 < x) ∧
    (trend_class x = TrendClass.alta ↔ 1/2 < x ∧ x ≤ 2) ∧
    (trend_class x = TrendClass.estavel ↔ -(1/2) ≤ x ∧ x ≤ 1/2) ∧
    (trend_class x = TrendClass.baixa ↔ -2 < x ∧ x < -(1/2)) ∧
    (trend_class x = TrendClass.forteBaixa ↔ x ≤ -2) := by
  unfold trend_class
  split_ifs with h1 h2 h3 h4 <;>
    refine ⟨?_, ?_, ?_, ?_, ?_⟩ <;> simp <;>
    first
      | linarith
      | (intro h; linarith)
      | (intro h h5; linarith)
      | (constructor <;> linarith)
      | (rintro ⟨ha, hb⟩; linarith)
      | (intro h; constructor <;> linarith)
      | (obtain ⟨h5, h6⟩ := h3
         first
           | linarith
           | (intro h; linarith)
           | (intro h h7; linarith)
           | (constructor <;> linarith)
           | (rintro ⟨ha, hb⟩; linarith))
      | (rcases not_and_or.mp h3 with h5 | h5 <;> push_neg at h5 <;>
          first
            | linarith
            | (intro h; linarith)
            | (intro h h7; linarith)
            | (constructor <;> linarith)
            | (rintro ⟨ha, hb⟩; linarith))

/-- C6 witness: a value strictly inside the Down bucket, classified
through the amended characterization. -/
theorem C6_witness : trend_class (-1) = TrendClass.baixa :=
  (C6_trend_buckets (-1)).2.2.2.1.mpr (by norm_num)

/-! ## Concrete records for counterexamples and witnesses -/

def goodRaw : RawRecord :=
  { base_currency := "USD", target_currency := "BRL", exchange_rate := .fin 5,
    collection_timestamp := ⟨2024, 100⟩, collection_date := 19737,
    last_update_timestamp := ⟨2024, 99⟩, pipeline_version := "1.0.0" }

def badRaw : RawRecord :=
  { base_currency := "USD", target_currency := "EUR", exchange_rate := .fin (-1),
    collection_timestamp := ⟨2024, 100⟩, collection_date := 19737,
    last_update_timestamp := ⟨2024, 99⟩, pipeline_version := "1.0.0" }

def sameCodeRaw : RawRecord :=
  { base_currency := "USD", target_currency := "USD", exchange_rate := .fin 5,
    collection_timestamp := ⟨2024, 100⟩, collection_date := 19737,
    last_update_timestamp := ⟨2024, 99⟩, pipeline_version := "1.0.0" }

def goodRecord : ExchangeRateRecord :=
  { base_currency := "USD", target_currency := "BRL", exchange_rate := .fin 5,
    collection_timestamp := ⟨2024, 100⟩, collection_date := 19737,
    last_update_timestamp := ⟨2024, 99⟩, pipeline_version := "1.0.0" }

def sameCodeRecord : ExchangeRateRecord :=
  { base_currency := "USD", target_currency := "USD", exchange_rate := .fin 5,
    collection_timestamp := ⟨2024, 100⟩, collection_date := 19737,
    last_update_timestamp := ⟨2024, 99⟩, pipeline_version := "1.0.0" }

theorem validate_exchange_rate_five :
    validate_exchange_rate (PyFloat.fin 5) = some (PyFloat.fin 5) := by
  have h5 : roundHalfEven ((5 : ℚ) * 100000000) = 500000000 :=
    roundHalfEven_low (by norm_num) (by norm_num)
  rw [validate_fin_accept (by norm_num) (by norm_num), h5]
  norm_num

theorem vccUSD : validate_currency_code "USD" = some "USD" := by decide

theorem vccBRL : validate_currency_code "BRL" = some "BRL" := by decide

theorem vtsA : validate_timestamps ⟨2024, 100⟩ = some ⟨2024, 100⟩ := by decide

theorem vtsB : validate_timestamps ⟨2024, 99⟩ = some ⟨2024, 99⟩ := by decide

theorem mk_goodRaw : mkExchangeRateRecord goodRaw = some goodRecord := by
  simp only [mkExchangeRateRecord, goodRaw, vccUSD, vccBRL,
    validate_exchange_rate_five, vtsA, vtsB, Option.some_bind, Option.bind_eq_bind]
  rfl

theorem mk_badRaw : mkExchangeRateRecord badRaw = none := by decide

theorem mk_sameCodeRaw : mkExchangeRateRecord sameCodeRaw = some sameCodeRecord := by
  simp only [mkExchangeRateRecord, sameCodeRaw, vccUSD,
    validate_exchange_rate_five, vtsA, vtsB, Option.some_bind, Option.bind_eq_bind]
  rfl

/-- C3 counterexample: a record whose base and target codes are both the
valid 3-letter code `USD` (all other fields valid) is accepted by the
record validator, not rejected -- `ExchangeRateRecord` has no validator
comparing the two codes. -/
theorem C3_counterexample :
    mkExchangeRateRecord sameCodeRaw = some sameCodeRecord ∧
    sameCodeRaw.base_currency = sameCodeRaw.target_currency :=
  ⟨mk_sameCodeRaw, rfl⟩

/-- C3 (amended): for every record with valid 3-letter alphabetic
currency codes, a finite rate in `(0, 1000000]` and timestamps within
years [2000, 2030], the record validator accepts -- even when the base
and target codes are equal.  Distinctness is not among its rules; it is
checked only by the separate `CurrencyValidator.validate_currency_pair`
utility, which the record-validation path never invokes. -/
theorem C3_validator_ignores_distinctness (r : RawRecord)
    (hb3 : r.base_currency.length = 3)
    (hba : r.base_currency.data.all Char.isAlpha = true)
    (heq : r.target_currency = r.base_currency)
    (hq : ∃ q : ℚ, r.exchange_rate = PyFloat.fin q ∧ 0 < q ∧ q ≤ 1000000)
    (hc1 : 2000 ≤ r.collection_timestamp.year)
    (hc2 : r.collection_timestamp.year ≤ 2030)
    (hl1 : 2000 ≤ r.last_update_timestamp.year)
    (hl2 : r.last_update_timestamp.year ≤ 2030) :
    (mkExchangeRateRecord r).isSome = true := by
  obtain ⟨q, hqe, h0, h1⟩ := hq
  have hvcc : validate_currency_code r.base_currency =
      some (pyUpper r.base_currency) := by
    unfold validate_currency_code
    rw [if_neg]
    simp [pyIsAlpha, hb3, hba]
  have hvt1 : validate_timestamps r.collection_timestamp =
      some r.collection_timestamp := by
    unfold validate_timestamps
    rw [if_neg]
    simp only [Bool.or_eq_true, decide_eq_true_eq, gt_iff_lt]
    omega
  have hvt2 : validate_timestamps r.last_update_timestamp =
      some r.last_update_timestamp := by
    unfold validate_timestamps
    rw [if_neg]
    simp only [Bool.or_eq_true, decide_eq_true_eq, gt_iff_lt]
    omega
  simp [mkExchangeRateRecord, hvcc, heq, hqe, validate_fin_accept h0 h1,
    hvt1, hvt2]

/-- C3 witness: the amended theorem applied to the concrete equal-code
record. -/
theorem C3_witness : (mkExchangeRateRecord sameCodeRaw).isSome = true :=
  C3_validator_ignores_distinctness sameCodeRaw (by decide) (by decide) rfl
    ⟨5, rfl, by norm_num, by norm_num⟩ (by decide) (by decide) (by decide)
    (by decide)

/-- C8 counterexample: the accepted input rate `10 ^ (-9)` is strictly
positive and within range, but `round(1e-9, 8)` stores exactly `0.0`,
which is not strictly positive. -/
theorem C8_counterexample :
    validate_exchange_rate (PyFloat.fin (1/1000000000)) =
      some (PyFloat.fin 0) ∧ ¬ (0 : ℚ) < 0 := by
  constructor
  · have h : roundHalfEven ((1/1000000000 : ℚ) * 100000000) = 0 :=
      roundHalfEven_low (by norm_num) (by norm_num)
    rw [validate_fin_accept (by norm_num) (by norm_num), h]
    norm_num
  · exact lt_irrefl 0

/-- C8 (amended): for every accepted input rate `0 < q <= 1000000` the
stored value (the 8-decimal rounding) is nonnegative and at most
1000000; it is strictly positive whenever `q >= 10 ^ (-8)`, but rates
below half an ulp of the 8th decimal round to exactly 0. -/
theorem C8_stored_rate_bounds (q : ℚ) (h0 : 0 < q) (h1 : q ≤ 1000000) :
    validate_exchange_rate (PyFloat.fin q) =
      some (PyFloat.fin ((roundHalfEven (q * 100000000) : ℚ) / 100000000)) ∧
    0 ≤ ((roundHalfEven (q * 100000000) : ℚ) / 100000000) ∧
    ((roundHalfEven (q * 100000000) : ℚ) / 100000000) ≤ 1000000 ∧
    (1/100000000 ≤ q →
      0 < ((roundHalfEven (q * 100000000) : ℚ) / 100000000)) := by
  refine ⟨validate_fin_accept h0 h1, ?_, ?_, ?_⟩
  · have hnn : (0 : ℤ) ≤ roundHalfEven (q * 100000000) :=
      roundHalfEven_nonneg (by positivity)
    exact div_nonneg (by exact_mod_cast hnn) (by norm_num)
  · have hle : roundHalfEven (q * 100000000) ≤ (100000000000000 : ℤ) :=
      roundHalfEven_le_of_le (by push_cast; linarith)
    rw [div_le_iff (by norm_num : (0:ℚ) < 100000000)]
    calc ((roundHalfEven (q * 100000000) : ℤ) : ℚ)
        ≤ ((100000000000000 : ℤ) : ℚ) := by exact_mod_cast hle
      _ = 1000000 * 100000000 := by norm_num
  · intro hq8
    have h1le : (1 : ℚ) ≤ q * 100000000 := by linarith
    have hge : (1 : ℤ) ≤ roundHalfEven (q * 100000000) :=
      one_le_roundHalfEven h1le
    have hgeQ : (1 : ℚ) ≤ ((roundHalfEven (q * 100000000) : ℤ) : ℚ) := by
      exact_mod_cast hge
    positivity

/-- C8 witness: the amended theorem applied at the concrete rate 5. -/
theorem C8_witness :
    validate_exchange_rate (PyFloat.fin 5) =
      some (PyFloat.fin
        ((roundHalfEven ((5:ℚ) * 100000000) : ℚ) / 100000000)) ∧
    0 < ((roundHalfEven ((5:ℚ) * 100000000) : ℚ) / 100000000) := by
  have h := C8_stored_rate_bounds 5 (by norm_num) (by norm_num)
  exact ⟨h.1, h.2.2.2 (by norm_num)⟩

/-- C9: a validation run with zero accepted records ends in a
status-error report (the `ValueError` of lines 477-478, converted by the
outer handler), while a run with at least one accepted record ends in a
status-success report regardless of how many records were rejected --
per-record rejections are swallowed inside `validate_records` and never
surface as exceptions. -/
theorem C9_empty_batch_fatal (records : List RawRecord) :
    (validate_records records = [] →
      (process_date_records records).status = RunStatus.error) ∧
    (validate_records records ≠ [] →
      (process_date_records records).status = RunStatus.success) := by
  unfold process_date_records
  constructor
  · intro h
    simp [h]
  · intro h
    rw [if_neg]
    simp [List.isEmpty_iff, h]

/-- C9 witness: a batch with one valid and one invalid record succeeds;
a batch whose only record is invalid errors. -/
theorem C9_witness :
    (process_date_records [goodRaw, badRaw]).status = RunStatus.success ∧
    (process_date_records [badRaw]).status = RunStatus.error := by
  constructor
  · refine (C9_empty_batch_fatal [goodRaw, badRaw]).2 ?_
    simp [validate_records, List.filterMap_cons, mk_goodRaw, mk_badRaw]
  · refine (C9_empty_batch_fatal [badRaw]).1 ?_
    simp [validate_records, List.filterMap_cons, mk_badRaw]

/-- On rows whose two currency cells are present, the claim-side slot
count agrees with the count computed by the source lambda. -/
theorem specInvalid_eq (df : List QRow)
    (h : ∀ r ∈ df, r.base_currency ≠ none ∧ r.target_currency ≠ none) :
    specInvalidCurrencies df = countInvalidCurrencies df := by
  induction df with
  | nil => rfl
  | cons r rs ih =>
    have hr := h r (by simp)
    obtain ⟨b, hb⟩ := Option.ne_none_iff_exists.mp hr.1
    obtain ⟨t, ht⟩ := Option.ne_none_iff_exists.mp hr.2
    have ih2 := ih (fun x hx => h x (by simp [hx]))
    simp only [specInvalidCurrencies, countInvalidCurrencies, List.map_cons,
      List.sum_cons] at ih2 ⊢
    rw [ih2, ← hb, ← ht]
    rfl

/-- C2: on a nonempty accepted batch (all currency cells present, as in
every batch built from validated records), the overall quality score is
`max 0 (1 - 0.3 * missing_ratio - 0.4 * invalid_rate_ratio -
0.3 * invalid_currency_ratio)` over the three ratios of the claim, and a
batch with no missing cells, no invalid rates and no invalid currency
codes scores exactly 1. -/
theorem C2_overall_score (df : List QRow) (hne : df ≠ [])
    (hcur : ∀ r ∈ df, r.base_currency ≠ none ∧ r.target_currency ≠ none) :
    calculate_overall_score df =
      max 0 (1 - 3/10 * ((countMissing df : ℚ) / (7 * df.length))
               - 4/10 * ((countInvalidRates df : ℚ) / df.length)
               - 3/10 * ((specInvalidCurrencies df : ℚ) / (2 * df.length))) ∧
    (countMissing df = 0 → countInvalidRates df = 0 →
      specInvalidCurrencies df = 0 → calculate_overall_score df = 1) := by
  have hlen : 0 < df.length := List.length_pos.mpr hne
  have hlenQ : (0:ℚ) < (df.length : ℚ) := by exact_mod_cast hlen
  have hspec := specInvalid_eq df hcur
  constructor
  · simp only [calculate_overall_score]
    rw [if_pos hlen, if_pos hlen, hspec]
    congr 1
    field_simp
    ring
  · intro hm hrt hc
    have hc2 : countInvalidCurrencies df = 0 := by rw [← hspec]; exact hc
    simp only [calculate_overall_score]
    rw [if_pos hlen, if_pos hlen, hm, hrt, hc2]
    norm_num

def qrowPerfect : QRow :=
  { base_currency := some "USD", target_currency := some "BRL",
    exchange_rate := some 5, collection_timestamp := some ⟨2024, 100⟩,
    collection_date := some 19737, last_update_timestamp := some ⟨2024, 99⟩,
    pipeline_version := some "1.0.0" }

/-- C2 witness: a one-row perfect batch scores exactly 1. -/
theorem C2_witness : calculate_overall_score [qrowPerfect] = 1 :=
  (C2_overall_score [qrowPerfect] (by simp) (by decide)).2 (by decide)
    (by decide) (by decide)

/-- Sum of squared deviations, expanded. -/
theorem sum_sq_dev (l : List ℚ) (c : ℚ) :
    (l.map (fun x => (x - c) ^ 2)).sum =
      (l.map (fun x => x ^ 2)).sum - 2 * c * l.sum + l.length * c ^ 2 := by
  induction l with
  | nil => simp
  | cons x xs ih =>
    simp only [List.map_cons, List.sum_cons, List.length_cons, ih]
    push_cast
    ring

theorem mem_calculate_daily_metrics {rows : List SilverRow} {m : DailyMetric}
    (hm : m ∈ calculate_daily_metrics rows) :
    ∃ k, k ∈ (rows.map keyOf).dedup ∧
      m = aggGroup k (rows.filter (fun r => decide (keyOf r = k))) := by
  unfold calculate_daily_metrics at hm
  rw [List.mem_map] at hm
  obtain ⟨k, hk, he⟩ := hm
  exact ⟨k, (mem_sortLe _ _ _).mp hk, he.symm⟩

theorem group_nonempty {rows : List SilverRow} {k : Date × String}
    (hk : k ∈ (rows.map keyOf).dedup) :
    rows.filter (fun r => decide (keyOf r = k)) ≠ [] := by
  rw [List.mem_dedup, List.mem_map] at hk
  obtain ⟨r, hr, hkey⟩ := hk
  intro hempty
  have hmem : r ∈ rows.filter (fun r => decide (keyOf r = k)) := by
    rw [List.mem_filter]
    exact ⟨hr, by simp [hkey]⟩
  rw [hempty] at hmem
  exact absurd hmem (List.not_mem_nil r)

/-- C4 counterexample: a `(date, currency)` group with exactly one
observation yields `rate_std = NaN` (modelled as `rate_var = none`),
not 0 -- pandas sample std of a singleton is NaN and the code never
fills it. -/
theorem C4_counterexample :
    (calculate_daily_metrics
      [{ collection_date := 19737, target_currency := "BRL",
         exchange_rate := 5, collection_timestamp := ⟨2024, 100⟩ }]).map
      (fun m => m.rate_var) = [none] ∧
    (none : Option ℚ) ≠ some 0 := by
  constructor
  · rfl
  · simp

/-- C4 (amended): `rate_std` is the sample standard deviation
(`ddof = 1`, here carried as its square `rate_var`) for groups with at
least two observations, and is null (NaN), not 0, for a
single-observation group: every output metric has at least one
observation, `rate_var` is `none` exactly when the group is a
singleton, and on groups of `n >= 2` it equals
`(sum of squared rates - n * mean ^ 2) / (n - 1)`. -/
theorem C4_rate_std (rows : List SilverRow) (m : DailyMetric)
    (hm : m ∈ calculate_daily_metrics rows) :
    1 ≤ m.observations ∧
    (m.rate_var = none ↔ m.observations = 1) ∧
    (2 ≤ m.observations →
      m.rate_var = some
        ((((rows.filter (fun r => decide (keyOf r = (m.date, m.currency)))).map
            (fun r => r.exchange_rate ^ 2)).sum -
          (m.observations : ℚ) * m.rate_mean ^ 2) /
          ((m.observations : ℚ) - 1))) := by
  obtain ⟨k, hk, hme⟩ := mem_calculate_daily_metrics hm
  have hne := group_nonempty hk
  set g := rows.filter (fun r => decide (keyOf r = k)) with hg
  have hobs : m.observations = g.length := by
    rw [hme]
    simp [aggGroup]
  have hkey2 : (m.date, m.currency) = k := by
    rw [hme]
    rfl
  have hlen1 : 0 < g.length := List.length_pos.mpr hne
  refine ⟨by omega, ?_, ?_⟩
  · rw [hme]
    simp only [aggGroup]
    by_cases h2 : 2 ≤ (g.map (fun r => r.exchange_rate)).length
    · rw [if_pos h2]
      simp only [List.length_map] at h2
      simp
      omega
    · rw [if_neg h2]
      simp only [List.length_map] at h2
      simp
      omega
  · intro h2
    rw [hobs] at h2
    have hmean : m.rate_mean =
        (g.map (fun r => r.exchange_rate)).sum / (g.length : ℚ) := by
      rw [hme]
      simp [aggGroup]
    have hvar : m.rate_var = some (sampleVar (g.map (fun r => r.exchange_rate))) := by
      rw [hme]
      simp only [aggGroup]
      rw [if_pos (by simpa using h2)]
    rw [hvar, hkey2, hobs, hmean]
    congr 1
    set rates := g.map (fun r => r.exchange_rate) with hrates
    have hrlen : rates.length = g.length := by simp [hrates]
    have hgQ : (0:ℚ) < (g.length : ℚ) := by exact_mod_cast hlen1
    have hsq : (g.map (fun r => r.exchange_rate ^ 2)).sum =
        (rates.map (fun x => x ^ 2)).sum := by
      simp only [hrates, List.map_map]
      rfl
    rw [hsq]
    unfold sampleVar
    rw [sum_sq_dev, hrlen]
    have hmean2 : listMean rates = rates.sum / (g.length : ℚ) := by
      rw [listMean, hrlen]
    rw [hmean2]
    have hn0 : ((g.length : ℚ)) ≠ 0 := ne_of_gt hgQ
    congr 1
    field_simp
    ring

def silverB : SilverRow :=
  { collection_date := 19737, target_currency := "BRL",
    exchange_rate := 4, collection_timestamp := ⟨2024, 100⟩ }

def silverC : SilverRow :=
  { collection_date := 19737, target_currency := "BRL",
    exchange_rate := 6, collection_timestamp := ⟨2024, 101⟩ }

def silverPair : List SilverRow := [silverB, silverC]

def dmPair : DailyMetric :=
  { date := 19737, currency := "BRL", rate_mean := 5, rate_var := some 2,
    rate_min := 4, rate_max := 6, observations := 2,
    last_update := ⟨2024, 101⟩, rate_range := 2, rate_cv_sq := 2/25 }

theorem calculate_daily_metrics_pair :
    calculate_daily_metrics silverPair = [dmPair] := by
  have hkeys : sortLe keyLe ((silverPair.map keyOf).dedup) =
      [((19737 : ℤ), "BRL")] := by decide
  have hfilter : silverPair.filter
      (fun r => decide (keyOf r = ((19737 : ℤ), "BRL"))) = silverPair := by decide
  simp only [calculate_daily_metrics, hkeys, List.map_cons, List.map_nil,
    hfilter]
  have hagg : aggGroup ((19737 : ℤ), "BRL") silverPair = dmPair := by
    simp only [aggGroup, silverPair, silverB, silverC, dmPair, sampleVar,
      listMean, listMin, listMax, listMaxD, Datetime.leD, List.map_cons,
      List.map_nil, List.sum_cons, List.sum_nil, List.length_cons,
      List.length_nil, List.foldl_cons, List.foldl_nil]
    norm_num [min_def, max_def]
  rw [hagg]

/-- C4 witness: the amended theorem applied to a concrete two-row
group with rates 4 and 6: two observations and sample variance 2
(sample std `sqrt 2`, while the population convention would give 1). -/
theorem C4_witness :
    1 ≤ dmPair.observations ∧
    (dmPair.rate_var = none ↔ dmPair.observations = 1) ∧
    (2 ≤ dmPair.observations →
      dmPair.rate_var = some
        ((((silverPair.filter
            (fun r => decide (keyOf r = (dmPair.date, dmPair.currency)))).map
            (fun r => r.exchange_rate ^ 2)).sum -
          (dmPair.observations : ℚ) * dmPair.rate_mean ^ 2) /
          ((dmPair.observations : ℚ) - 1))) :=
  C4_rate_std silverPair dmPair
    (by rw [calculate_daily_metrics_pair]; simp)

/-- Indexing the day-over-day column built by `zipWith` over a series
and its tail. -/
theorem zipWith_tail_getD (f : ℚ → ℚ → ℚ) :
    ∀ (x : ℚ) (l : List ℚ) (j : ℕ), j + 1 < (x :: l).length →
      (List.zipWith f (x :: l) l).getD j 0 =
        f ((x :: l).getD j 0) ((x :: l).getD (j + 1) 0)
  | _, [], j, h => absurd h (by simp)
  | _, _ :: _, 0, _ => rfl
  | x, y :: rest, j + 1, h => by
      simpa [List.getD_cons_succ] using
        zipWith_tail_getD f y rest j (by simpa using h)

theorem getD_map_rat (g : ℚ → ℚ) :
    ∀ (xs : List ℚ) (i : ℕ), i < xs.length →
      (xs.map g).getD i 0 = g (xs.getD i 0)
  | _ :: _, 0, _ => rfl
  | x :: rest, i + 1, h => by
      simpa [List.getD_cons_succ] using getD_map_rat g rest i (by simpa using h)
  | [], i, h => absurd h (by simp)

/-- C1: on a chronologically sorted per-currency series of daily means
with at least 2 points (all positive, as means of validated rates are),
the trend calculator computes
`daily_change[i] = (mean[i]/mean[i-1] - 1) * 100` with
`daily_change[0] = 0`, and
`cumulative_change[i] = (mean[i]/mean[0] - 1) * 100`; in particular the
series `[1, 1.1, 1.21]` yields daily changes `[0, 10, 10]` and
cumulative changes `[0, 10, 21]`. -/
theorem C1_trend_changes :
    (∀ xs : List ℚ, 2 ≤ xs.length → (∀ x ∈ xs, 0 < x) →
      ∀ i, i < xs.length →
        ((calculate_historical_trends_currency xs).daily_change.getD i 0 =
          if i = 0 then 0
          else (xs.getD i 0 / xs.getD (i - 1) 0 - 1) * 100) ∧
        ((calculate_historical_trends_currency xs).cumulative_change.getD i 0 =
          (xs.getD i 0 / xs.getD 0 0 - 1) * 100)) ∧
    ((calculate_historical_trends_currency [1, 11/10, 121/100]).daily_change =
      [0, 10, 10] ∧
     (calculate_historical_trends_currency [1, 11/10, 121/100]).cumulative_change =
      [0, 10, 21]) := by
  constructor
  · intro xs h2 hpos i hi
    have hlt : ¬ xs.length < 2 := by omega
    obtain ⟨x, xs1, rfl⟩ : ∃ a l, xs = a :: l := by
      cases xs with
      | nil => simp at h2
      | cons a l => exact ⟨a, l, rfl⟩
    simp only [calculate_historical_trends_currency, hlt, if_false]
    constructor
    · cases i with
      | zero => simp [dailyChanges]
      | succ j =>
        simp only [dailyChanges, List.getD_cons_succ]
        rw [zipWith_tail_getD _ x xs1 j (by simpa using hi)]
        simp
    · simp only [cumulativeChanges]
      rw [getD_map_rat _ (x :: xs1) i (by simpa using hi)]
      rfl
  · constructor
    · norm_num [calculate_historical_trends_currency, dailyChanges]
    · norm_num [calculate_historical_trends_currency, cumulativeChanges]

/-- C1 witness: the formula instantiated at the two-point series
`[1, 2]` and index 1. -/
theorem C1_witness :
    (calculate_historical_trends_currency [1, 2]).daily_change.getD 1 0 =
      ((2 : ℚ) / 1 - 1) * 100 ∧
    (calculate_historical_trends_currency [1, 2]).cumulative_change.getD 1 0 =
      ((2 : ℚ) / 1 - 1) * 100 := by
  have h := C1_trend_changes.1 [1, 2] (by norm_num)
    (by
      intro x hx
      simp only [List.mem_cons, List.mem_singleton, List.not_mem_nil,
        or_false] at hx
      rcases hx with rfl | rfl <;> norm_num) 1
    (by norm_num)
  obtain ⟨hd, hc⟩ := h
  constructor
  · rw [hd]
    norm_num
  · rw [hc]
    norm_num

/-- C10: the trend stage the gold pipeline actually invokes,
`calculate_historical_trends_simple`, sets `daily_change = 0`,
`cumulative_change = 0`, `volatility_7d = 0`, `relative_position = 50`
on every row and copies the row's own `rate_mean` into `ma_7d`,
`max_30d` and `min_30d` -- on the pipeline path
(`process_gold_layer`, steps 2-3) the day-over-day and rolling-window
computations are never applied. -/
theorem C10_simple_trend_constants :
    (∀ dm : List DailyMetric, ∀ row ∈ calculate_historical_trends_simple dm,
      row.daily_change = 0 ∧ row.cumulative_change = 0 ∧
      row.volatility_7d = 0 ∧ row.relative_position = 50 ∧
      row.ma_7d = row.rate_mean ∧ row.max_30d = row.rate_mean ∧
      row.min_30d = row.rate_mean) ∧
    (∀ silver : List SilverRow, ∀ row ∈ process_gold_layer_trends silver,
      row.daily_change = 0 ∧ row.cumulative_change = 0 ∧
      row.volatility_7d = 0 ∧ row.relative_position = 50 ∧
      row.ma_7d = row.rate_mean ∧ row.max_30d = row.rate_mean ∧
      row.min_30d = row.rate_mean) := by
  have hmain : ∀ dm : List DailyMetric,
      ∀ row ∈ calculate_historical_trends_simple dm,
      row.daily_change = 0 ∧ row.cumulative_change = 0 ∧
      row.volatility_7d = 0 ∧ row.relative_position = 50 ∧
      row.ma_7d = row.rate_mean ∧ row.max_30d = row.rate_mean ∧
      row.min_30d = row.rate_mean := by
    intro dm row hrow
    unfold calculate_historical_trends_simple at hrow
    rw [List.mem_map] at hrow
    obtain ⟨m, hms, rfl⟩ := hrow
    exact ⟨rfl, rfl, rfl, rfl, rfl, rfl, rfl⟩
  exact ⟨hmain, fun silver row h => hmain (calculate_daily_metrics silver) row h⟩

def dmSingle : DailyMetric :=
  { date := 19737, currency := "BRL", rate_mean := 5, rate_var := none,
    rate_min := 5, rate_max := 5, observations := 1,
    last_update := ⟨2024, 100⟩, rate_range := 0, rate_cv_sq := 0 }

def rowSingle : GoldTrendRow :=
  { date := 19737, currency := "BRL", rate_mean := 5, rate_var := none,
    rate_min := 5, rate_max := 5, observations := 1,
    last_update := ⟨2024, 100⟩, rate_range := 0, rate_cv_sq := 0,
    daily_change := 0, cumulative_change := 0, ma_7d := 5,
    volatility_7d := 0, max_30d := 5, min_30d := 5,
    relative_position := 50 }

/-- C10 witness: the theorem applied to a concrete one-metric table. -/
theorem C10_witness :
    rowSingle.daily_change = 0 ∧ rowSingle.cumulative_change = 0 ∧
    rowSingle.volatility_7d = 0 ∧ rowSingle.relative_position = 50 ∧
    rowSingle.ma_7d = rowSingle.rate_mean ∧
    rowSingle.max_30d = rowSingle.rate_mean ∧
    rowSingle.min_30d = rowSingle.rate_mean :=
  C10_simple_trend_constants.1 [dmSingle] rowSingle (by decide)

end Pipeline
